/-
Verification of the NVENC binary-patching engine of `nvidia-docker-setup`
(`nvidia_driver_setup/nvidia/patches.py`) against its natural-language
specification.

The Python source is shallowly embedded: bytes are `List Nat`, `bytes.fromhex`
is `hexDecode`, Python slices `data[a:b]` (which clamp out-of-range indices)
become `take`/`drop` combinations, and the stateful patcher becomes a pure
function returning both the `PatchResult` and the file content it leaves (or
attempts to leave) on disk.  Subprocess probes and filesystem reads are
supplied as explicit environment values.
-/
import Mathlib

set_option maxHeartbeats 1000000

-- ── Byte-level helpers ─────────────────────────────────────────────

/-- Value of one hexadecimal digit character (lower-case, as used in the
anchor table); models the per-character decoding done by `bytes.fromhex`. -/
def hexVal (c : Char) : Nat :=
  if '0' ≤ c ∧ c ≤ '9' then c.toNat - 48
  else if 'a' ≤ c ∧ c ≤ 'f' then c.toNat - 87
  else 0

/-- Model of Python `bytes.fromhex`: consume the character list two hex
digits at a time, producing one byte per pair. -/
def hexDecode : List Char → List Nat
  | c1 :: c2 :: rest => (16 * hexVal c1 + hexVal c2) :: hexDecode rest
  | _ => []

/-- Model of the Python slice `data[a : a + n]` for a non-negative start:
out-of-range parts are clamped away, never an error. -/
def pySlice (data : List Nat) (a n : Nat) : List Nat :=
  (data.drop a).take n

/-- Python `hex(n)` (lower-case hexadecimal with a `0x` prefix). -/
def natToHex (n : Nat) : String := "0x" ++ String.mk (Nat.toDigits 16 n)

/-- Two-character lower-case hexadecimal rendering of one byte, as produced
for each byte by Python `bytes.hex()`. -/
def byteToHex (b : Nat) : List Char :=
  let d := Nat.toDigits 16 b
  if d.length = 1 then '0' :: d else d

/-- Model of Python `bytes.hex()`. -/
def bytesToHex (bs : List Nat) : String :=
  String.mk (bs.foldr (fun b acc => byteToHex b ++ acc) [])

-- ── Data model (patches.py lines 68-128) ───────────────────────────

/-- A single old -> new byte replacement at the patch site
(`PatchVariant`, patches.py lines 68-73). -/
structure PatchVariant where
  old_hex : String
  new_hex : String
  label : String
deriving Repr, DecidableEq

/-- An anchor byte sequence and its associated patch variants
(`AnchorPattern`, patches.py lines 76-82). -/
structure AnchorPattern where
  anchor : String
  skip : Nat
  patched_marker : String
  variants : List PatchVariant
deriving Repr, DecidableEq

/-- The fixed anchor table `_ANCHORS` (patches.py lines 85-118), transcribed
verbatim. -/
def ANCHORS : List AnchorPattern := [
  { anchor := "feff4189c685c0",
    skip := 2,
    patched_marker := "feff29c04189c6",
    variants := [
      { old_hex := "4189c685c00f85a6000000", new_hex := "29c04189c690909090909090", label := "r14d+JNE" },
      { old_hex := "4189c685c0", new_hex := "29c04189c6", label := "r14d" }
    ] },
  { anchor := "feff85c04189c4",
    skip := 2,
    patched_marker := "feff29c04189c4",
    variants := [
      { old_hex := "85c04189c4", new_hex := "29c04189c4", label := "r12d-test-first" }
    ] },
  { anchor := "feff4189c485c0",
    skip := 2,
    patched_marker := "feff29c04189c4",
    variants := [
      { old_hex := "4189c485c00f85", new_hex := "29c04189c49090", label := "r12d+JNE" },
      { old_hex := "4189c485c0", new_hex := "29c04189c4", label := "r12d" }
    ] }
]

/-- Result of a binary patch operation (`PatchResult`, patches.py lines
121-128). -/
structure PatchResult where
  success : Bool
  already_patched : Bool
  variant_label : String
  offset : Int
  message : String
deriving Repr, DecidableEq

-- ── Binary search primitives (patches.py lines 570-587) ────────────

/-- Decidable test that `pat` occurs in `data` exactly at offset `pos`
(the per-position comparison underlying Python `bytes.find`). -/
def matchesAt (data pat : List Nat) (pos : Nat) : Bool :=
  decide (pos + pat.length ≤ data.length ∧ (data.drop pos).take pat.length = pat)

/-- Fuel-driven linear scan underlying `data.find(pattern, start)`:
try `pos`, `pos+1`, ... for at most `fuel` positions. -/
def findFromAux (data pat : List Nat) : Nat → Nat → Option Nat
  | _, 0 => none
  | pos, fuel + 1 =>
    if matchesAt data pat pos then some pos
    else findFromAux data pat (pos + 1) fuel

/-- Model of Python `data.find(pattern, start)`: the least offset `≥ start`
at which `pattern` occurs, if any (`none` plays the role of `-1`). -/
def findFrom (data pat : List Nat) (start : Nat) : Option Nat :=
  findFromAux data pat start (data.length + 1 - start)

/-- The loop body of `_find_all_occurrences` (patches.py lines 580-587):
collect hits, resuming one byte after each hit; `fuel` bounds the number of
iterations (the hits are strictly increasing and bounded by the data
length, so `data.length + 1` iterations always suffice). -/
def findAllAux (data pat : List Nat) : Nat → Nat → List Nat
  | _, 0 => []
  | start, fuel + 1 =>
    match findFrom data pat start with
    | none => []
    | some pos => pos :: findAllAux data pat (pos + 1) fuel

/-- Model of `_find_all_occurrences(data, pattern)` (patches.py lines
570-587). -/
def find_all_occurrences (data pat : List Nat) : List Nat :=
  findAllAux data pat 0 (data.length + 1)

-- ── The anchor scan of `_patch_binary` (patches.py lines 624-672) ──

/-- Check `data.find(marker_bytes) != -1` for one anchor entry
(patches.py lines 643-644). -/
def markerPresent (data : List Nat) (entry : AnchorPattern) : Bool :=
  (findFrom data (hexDecode entry.patched_marker.toList) 0).isSome

/-- Outcome of the anchor-scanning loop of `_patch_binary`. -/
inductive ScanOutcome where
  | matched (entry : AnchorPattern) (pos : Nat)
  | alreadyPatched
  | exhausted
deriving Repr, DecidableEq

/-- The `for entry in _ANCHORS` loop of `_patch_binary` (patches.py lines
628-651): the first anchor with exactly one hit wins (`break` precedes the
marker check, so a matched entry's marker is not consulted); an anchor with
zero or several hits has its `patched_marker` looked up before moving on. -/
def scanAnchors (data : List Nat) : List AnchorPattern → ScanOutcome
  | [] => .exhausted
  | entry :: rest =>
    let hits := find_all_occurrences data (hexDecode entry.anchor.toList)
    if hits.length = 1 then .matched entry (hits.headD 0)
    else if markerPresent data entry then .alreadyPatched
    else scanAnchors data rest

-- ── The variant loop of `_patch_binary` (patches.py lines 679-740) ─

/-- The `for variant in matched_anchor.variants` loop (patches.py lines
679-740).  `write_err = some e` models the `open(..., "wb")`/`write` pair
raising `OSError(e)`; the second component of the result is the content the
code leaves (or attempts to write) on disk. -/
def tryVariants (data : List Nat) (patch_start : Nat) (dry_run : Bool)
    (write_err : Option String) : List PatchVariant → PatchResult × List Nat
  | [] =>
    ({ success := false, already_patched := false, variant_label := "",
       offset := (patch_start : Int),
       message := "No variant matched at " ++ natToHex patch_start ++
         ". Bytes found: " ++ bytesToHex (pySlice data patch_start 16) }, data)
  | v :: rest =>
    let oldB := hexDecode v.old_hex.toList
    let newB := hexDecode v.new_hex.toList
    let actual := pySlice data patch_start oldB.length
    if actual = oldB then
      if dry_run then
        ({ success := true, already_patched := false, variant_label := v.label,
           offset := (patch_start : Int),
           message := "[DRY-RUN] Pattern found -- patch would succeed" }, data)
      else
        -- data[patch_start : patch_start + len(old_bytes)] = new_bytes
        let newData := data.take patch_start ++ newB ++ data.drop (patch_start + oldB.length)
        match write_err with
        | some e =>
          ({ success := false, already_patched := false, variant_label := v.label,
             offset := (patch_start : Int),
             message := "Failed to write patched binary: " ++ e }, newData)
        | none =>
          ({ success := true, already_patched := false, variant_label := v.label,
             offset := (patch_start : Int),
             message := "Patched variant " ++ v.label ++ " at offset " ++
               natToHex patch_start }, newData)
    else if actual = newB then
      ({ success := true, already_patched := true, variant_label := v.label,
         offset := (patch_start : Int),
         message := "Library is already patched" }, data)
    else tryVariants data patch_start dry_run write_err rest

/-- `_patch_binary` from the point where the file bytes have been read
(patches.py lines 624-740), as a pure function from the file content to the
result and the content left on disk. -/
def patch_binary_core (data : List Nat) (dry_run : Bool) (write_err : Option String) :
    PatchResult × List Nat :=
  match scanAnchors data ANCHORS with
  | .alreadyPatched =>
    ({ success := true, already_patched := true, variant_label := "",
       offset := -1, message := "Library is already patched" }, data)
  | .exhausted =>
    if ANCHORS.any (fun e => markerPresent data e) then
      ({ success := true, already_patched := true, variant_label := "",
         offset := -1, message := "Library is already patched" }, data)
    else
      ({ success := false, already_patched := false, variant_label := "",
         offset := -1,
         message := "No unique anchor pattern found in binary. This driver version may not be supported." }, data)
  | .matched entry pos => tryVariants data (pos + entry.skip) dry_run write_err entry.variants

/-- Full `_patch_binary` (patches.py lines 590-740): `read_result` models
the `open(lib_path, "rb")`/`read` pair (`.error e` is a raised `OSError(e)`,
caught at lines 612-619).  The second component is the file content on disk
afterwards when that is determined (`none` when the file was never read). -/
def patch_binary (lib_path : String) (read_result : Except String (List Nat))
    (dry_run : Bool) (write_err : Option String) : PatchResult × Option (List Nat) :=
  match read_result with
  | .error e =>
    ({ success := false, already_patched := false, variant_label := "",
       offset := -1, message := "Cannot read " ++ lib_path ++ ": " ++ e }, none)
  | .ok data =>
    let r := patch_binary_core data dry_run write_err
    (r.1, some r.2)

-- ── Persistence model for the write-back step (patches.py 703-705) ─

/-- Filesystem events relevant to the patcher's write-back.  Opening a file
with mode `"wb"` first truncates it; `write` then stores the content. -/
inductive FsEvent where
  | truncate (path : String)
  | writeAll (path : String) (content : List Nat)
deriving Repr, DecidableEq

/-- A filesystem: an association of paths to file contents. -/
abbrev FsState := List (String × List Nat)

/-- Content of `p` in state `s`, if the file exists. -/
def readFsFile : FsState → String → Option (List Nat)
  | [], _ => none
  | (q, c) :: rest, p => if q = p then some c else readFsFile rest p

/-- Store content `c` at path `p` (update in place or create). -/
def setFsFile : FsState → String → List Nat → FsState
  | [], p, c => [(p, c)]
  | (q, d) :: rest, p, c =>
    if q = p then (p, c) :: rest else (q, d) :: setFsFile rest p c

/-- Effect of one filesystem event. -/
def applyEvent (s : FsState) : FsEvent → FsState
  | .truncate p => setFsFile s p []
  | .writeAll p c => setFsFile s p c

/-- Effect of a sequence of filesystem events. -/
def applyEvents (s : FsState) (es : List FsEvent) : FsState :=
  es.foldl applyEvent s

/-- The write-back performed by `_patch_binary` after a variant matched
(patches.py lines 703-705): `open(lib_path, "wb")` truncates the target in
place, then `fh.write(data)` stores the whole patched content. -/
def writebackTrace (path : String) (content : List Nat) : List FsEvent :=
  [FsEvent.truncate path, FsEvent.writeAll path content]

/-- Modelled from the spec: the atomic-persistence property the spec asserts
for the write-back ("write to a temporary location, then replace") — at
every interruption point, the target file holds either its original bytes
or the final patched bytes. -/
def atomicPersists (init : FsState) (trace : List FsEvent) (target : String)
    (orig final : List Nat) : Prop :=
  ∀ k, k ≤ trace.length →
    readFsFile (applyEvents init (trace.take k)) target = some orig ∨
    readFsFile (applyEvents init (trace.take k)) target = some final

-- ── Orchestrator `_apply_nvenc_patch` (patches.py lines 820-962) ───

/-- Python truthiness of an optional string (`if soname_before:`): `None`
and the empty string are falsy. -/
def optTruthy : Option String → Bool
  | none => false
  | some s => s != ""

/-- Environment of one `_apply_nvenc_patch` run: the values returned by its
collaborators (`_gpu_needs_nvenc_patch`, `_detect_driver_version`,
`_find_encode_library`, `_verify_elf_soname` before and after,
`_create_backup`, `_patch_binary`, `_restore_backup`). -/
structure OrchestratorEnv where
  gpu_needs_patch : Bool
  driver_version : Option String
  lib_path : Option String
  soname_before : Option String
  backup_ok : Bool
  patch_result : PatchResult
  soname_after : Option String
  restore_ok : Bool
deriving Repr, DecidableEq

/-- The distinct return points of `_apply_nvenc_patch`, in source order. -/
inductive NvencReport where
  | noPatchNeeded
  | versionUndetected
  | libraryNotFound
  | sonamePreMissing
  | rollbackRestored
  | rollbackFailed
  | backupFailed
  | alreadyPatched
  | patchFailed
  | dryRunReport
  | sonameDestroyedRolledBack
  | patchCompleted
deriving Repr, DecidableEq

/-- Observable outcome of one `_apply_nvenc_patch` run: which return point
was taken, and whether `_restore_backup` was invoked during the run. -/
structure NvencRun where
  report : NvencReport
  restoreCalled : Bool
deriving Repr, DecidableEq

/-- Control flow of `_apply_nvenc_patch` (patches.py lines 820-962),
branch by branch:
gpu check (848-850), version detection (854-860), library search (866-872),
SONAME pre-check (877-886), rollback mode (889-901), backup (904-906),
patching (911), already-patched (913-915), failure (917-922), dry-run
(924-926), post-patch SONAME verification with rollback (929-935), and the
successful completion tail (937-962). -/
def apply_nvenc_patch (env : OrchestratorEnv) (dry_run rollback : Bool) : NvencRun :=
  if !rollback && !env.gpu_needs_patch then ⟨.noPatchNeeded, false⟩
  else match env.driver_version with
  | none => ⟨.versionUndetected, false⟩
  | some _ =>
    match env.lib_path with
    | none => ⟨.libraryNotFound, false⟩
    | some _ =>
      if !(optTruthy env.soname_before) && !rollback then ⟨.sonamePreMissing, false⟩
      else if rollback then
        if env.restore_ok then ⟨.rollbackRestored, true⟩
        else ⟨.rollbackFailed, true⟩
      else if !env.backup_ok then ⟨.backupFailed, false⟩
      else if env.patch_result.already_patched then ⟨.alreadyPatched, false⟩
      else if !env.patch_result.success then ⟨.patchFailed, false⟩
      else if dry_run then ⟨.dryRunReport, false⟩
      else if optTruthy env.soname_before && !(optTruthy env.soname_after) then
        ⟨.sonameDestroyedRolledBack, true⟩
      else ⟨.patchCompleted, false⟩

/-- Which return points log the overall success message
`"NVENC session limit removed!"` (patches.py line 959): only the
successful completion tail does. -/
def logsPatchSuccess : NvencReport → Bool
  | .patchCompleted => true
  | _ => false

-- ── Version detection `_detect_driver_version` (patches.py 133-257) ─

/-- Python `str.isspace` characters relevant to `str.strip()` /
`str.split()` (space, tab, newline, vertical tab, form feed, carriage
return). -/
def isPySpace (c : Char) : Bool :=
  c = ' ' || c = '\t' || c = '\n' || c = '\r' || c = Char.ofNat 11 || c = Char.ofNat 12

/-- Decimal digit test (`[0-9]` in the regexes). -/
def isDigitC (c : Char) : Bool := '0' ≤ c && c ≤ '9'

/-- Python `s.strip()`: whitespace removed from both ends. -/
def pyStrip (s : List Char) : List Char :=
  ((s.dropWhile isPySpace).reverse.dropWhile isPySpace).reverse

/-- Model of `_VERSION_PATTERN.match(s) is not None` where
`_VERSION_PATTERN = re.compile(r'^[0-9]+\.[0-9]+')` (patches.py line 24):
`re.match` anchors only at the start, so this tests that `s` BEGINS with
digits, a dot, and at least one more digit — trailing characters are
not constrained. -/
def versionPatternMatch (s : List Char) : Bool :=
  match s.dropWhile isDigitC with
  | '.' :: c :: _ => decide (s.takeWhile isDigitC ≠ []) && isDigitC c
  | _ => false

/-- Python `s.startswith(p)` on character lists. -/
def strStartsWith : List Char → List Char → Bool
  | _, [] => true
  | [], _ :: _ => false
  | c :: s, d :: p => c = d && strStartsWith s p

/-- Python `s.split(None, 1)`: discard leading whitespace, take the first
whitespace-free token, then the remainder after the separating whitespace. -/
def splitNone1 (s : List Char) : List (List Char) :=
  let s0 := s.dropWhile isPySpace
  match s0 with
  | [] => []
  | _ =>
    let tok := s0.takeWhile (fun c => !isPySpace c)
    let rest := (s0.dropWhile (fun c => !isPySpace c)).dropWhile isPySpace
    if rest = [] then [tok] else [tok, rest]

/-- Python `str.splitlines()`: split at `\n`, `\r` and `\r\n`, with no
trailing empty line for a terminated final line. -/
def splitLines : List Char → List (List Char)
  | [] => []
  | '\r' :: '\n' :: rest => [] :: splitLines rest
  | '\r' :: rest => [] :: splitLines rest
  | '\n' :: rest => [] :: splitLines rest
  | c :: rest =>
    match splitLines rest with
    | [] => [[c]]
    | h :: t => (c :: h) :: t

/-- Python `s.split()` (split on whitespace runs, no empty tokens). -/
def pySplitWs (s : List Char) : List (List Char) :=
  match s with
  | [] => []
  | c :: rest =>
    if isPySpace c then pySplitWs rest
    else (c :: rest.takeWhile (fun d => !isPySpace d)) ::
      pySplitWs (rest.dropWhile (fun d => !isPySpace d))
termination_by s.length
decreasing_by
  all_goals simp_wf
  all_goals exact Nat.lt_succ_of_le ((List.dropWhile_suffix _).sublist.length_le)

/-- Python `os.path.basename`: everything after the last `/`. -/
def pyBasename (p : List Char) : List Char :=
  p.foldl (fun acc c => if c = '/' then [] else acc ++ [c]) []

/-- The group `([0-9]+\.[0-9]+\.[0-9]+)` matched at the start of `s`
(greedy digit runs, as in the regexes of patches.py lines 219 and 248):
returns the matched characters, or `none` if `s` does not start with
three dot-separated digit runs. -/
def parseVer3 (s : List Char) : Option (List Char) :=
  let a := s.takeWhile isDigitC
  match a, s.dropWhile isDigitC with
  | _ :: _, '.' :: s2 =>
    let b := s2.takeWhile isDigitC
    match b, s2.dropWhile isDigitC with
    | _ :: _, '.' :: s3 =>
      let c := s3.takeWhile isDigitC
      match c with
      | [] => none
      | _ => some (a ++ '.' :: b ++ '.' :: c)
    | _, _ => none
  | _, _ => none

/-- Model of `re.search(r'\.so\.([0-9]+\.[0-9]+\.[0-9]+)', s)` returning
`group(1)` (patches.py line 248): scan left to right for `.so.` followed by
three dot-separated digit runs. -/
def extractSoVersion : List Char → Option (List Char)
  | [] => none
  | c :: rest =>
    if strStartsWith (c :: rest) ".so.".toList then
      match parseVer3 ((c :: rest).drop 4) with
      | some v => some v
      | none => extractSoVersion rest
    else extractSoVersion rest

/-- Python `int(x)` on a digit run. -/
def digitsToNat (s : List Char) : Nat :=
  s.foldl (fun acc c => 10 * acc + (c.toNat - 48)) 0

/-- Python `s.split('.')`. -/
def splitOnDot : List Char → List (List Char)
  | [] => [[]]
  | c :: rest =>
    let r := splitOnDot rest
    if c = '.' then [] :: r
    else match r with
      | h :: t => (c :: h) :: t
      | [] => [[c]]

/-- The sort key `tuple(int(x) for x in v.split('.'))` (patches.py line
254). -/
def verKey (v : List Char) : List Nat := (splitOnDot v).map digitsToNat

/-- Lexicographic comparison of version keys (Python tuple `<`). -/
def keyLt : List Nat → List Nat → Bool
  | [], [] => false
  | [], _ :: _ => true
  | _ :: _, [] => false
  | a :: as, b :: bs => a < b || (a = b && keyLt as bs)

/-- Head of `all_versions` after `sort(key=..., reverse=True)` (patches.py
lines 252-255): the leftmost element with the greatest key (Python's sort
is stable and `reverse=True` keeps the original order of equal keys). -/
def maxByKey (v : List Char) (vs : List (List Char)) : List Char :=
  vs.foldl (fun best x => if keyLt (verKey best) (verKey x) then x else best) v

/-- `_detect_version_from_library` (patches.py lines 232-257): `paths` is
the concatenation of the `glob.glob` results over the search directories,
in traversal order. -/
def detect_version_from_library (paths : List (List Char)) : Option (List Char) :=
  let all_versions := paths.filterMap (fun p => extractSoVersion (pyBasename p))
  match all_versions with
  | [] => none
  | v :: vs => some (maxByKey v vs)

/-- The `modinfo nvidia` line loop (patches.py lines 191-199): the first
`version:` line whose second field is nonempty and matches
`_VERSION_PATTERN` wins; other lines are skipped. -/
def scanModinfoLines : List (List Char) → Option (List Char)
  | [] => none
  | line :: rest =>
    if strStartsWith line "version:".toList then
      let parts := splitNone1 line
      let ver := match parts with
        | _ :: v :: _ => pyStrip v
        | _ => []
      if ver ≠ [] ∧ versionPatternMatch ver then some ver
      else scanModinfoLines rest
    else scanModinfoLines rest

/-- Full match of `^nvidia-driver-[0-9]+$` (patches.py line 217). -/
def isNvidiaDriverPkg (s : List Char) : Bool :=
  strStartsWith s "nvidia-driver-".toList &&
    (let rest := s.drop 14
     decide (rest ≠ []) && rest.all isDigitC)

/-- The `dpkg -l` line loop (patches.py lines 212-225): an `ii` line whose
package name matches `^nvidia-driver-[0-9]+$` and whose version field
starts with `[0-9]+\.[0-9]+\.[0-9]+` yields `match.group(0)` — exactly the
numeric prefix. -/
def scanDpkgLines : List (List Char) → Option (List Char)
  | [] => none
  | line :: rest =>
    match pySplitWs line with
    | p0 :: p1 :: p2 :: _ =>
      if p0 = "ii".toList ∧ isNvidiaDriverPkg p1 then
        match parseVer3 p2 with
        | some v => some v
        | none => scanDpkgLines rest
      else scanDpkgLines rest
    | _ => scanDpkgLines rest

/-- Environment of one `_detect_driver_version` run: for each subprocess
probe, `none` models a raised `OSError` and `some (rc, out)` a completed
process with return code `rc` and standard output `out`; `lib_paths` is
the `glob.glob` result used by `_detect_version_from_library`. -/
structure DetectEnv where
  nvidia_smi : Option (Int × List Char)
  lib_paths : List (List Char)
  modinfo : Option (Int × List Char)
  dpkg : Option (Int × List Char)
deriving Repr, DecidableEq

/-- Method 1: the `nvidia-smi --query-gpu=driver_version` probe
(patches.py lines 154-172). -/
def detectMethod1 (probe : Option (Int × List Char)) : Option (List Char) :=
  match probe with
  | none => none
  | some (rc, out) =>
    if rc = 0 then
      let ver := pyStrip out
      if ver ≠ [] ∧ versionPatternMatch ver then some ver else none
    else none

/-- Method 3: the `modinfo nvidia` probe (patches.py lines 183-201). -/
def detectMethod3 (probe : Option (Int × List Char)) : Option (List Char) :=
  match probe with
  | none => none
  | some (rc, out) => if rc = 0 then scanModinfoLines (splitLines out) else none

/-- Method 4: the `dpkg -l 'nvidia-driver-*'` probe (patches.py lines
204-227). -/
def detectMethod4 (probe : Option (Int × List Char)) : Option (List Char) :=
  match probe with
  | none => none
  | some (rc, out) => if rc = 0 then scanDpkgLines (splitLines out) else none

/-- `_detect_driver_version` (patches.py lines 133-229): a manual version
bypasses all probing; otherwise the four probes are tried in order. -/
def detect_driver_version (env : DetectEnv) (manual_version : Option (List Char)) :
    Option (List Char) :=
  match manual_version with
  | some v => some v
  | none =>
    match detectMethod1 env.nvidia_smi with
    | some v => some v
    | none =>
      match detect_version_from_library env.lib_paths with
      | some v => some v
      | none =>
        match detectMethod3 env.modinfo with
        | some v => some v
        | none => detectMethod4 env.dpkg

/-- Modelled from the spec: a string "matching a strict major.minor[.patch]
numeric pattern (digits and dots only, optionally a third numeric
component, nothing else)" — the property the claim asserts of every
probed return value. -/
def specStrictVersion (s : List Char) : Bool :=
  let a := s.takeWhile isDigitC
  match a, s.dropWhile isDigitC with
  | _ :: _, '.' :: s2 =>
    let b := s2.takeWhile isDigitC
    match b, s2.dropWhile isDigitC with
    | _ :: _, [] => true
    | _ :: _, '.' :: s3 =>
      let c := s3.takeWhile isDigitC
      match c, s3.dropWhile isDigitC with
      | _ :: _, [] => true
      | _, _ => false
    | _, _ => false
  | _, _ => false

-- ── Concrete instances used in counterexamples and witnesses ───────

/-- A 13-byte file consisting of the first anchor followed by the bytes the
`r14d+JNE` variant expects at the patch site: the anchor
`feff4189c685c0` occurs exactly once (at offset 0), and
`data[2:13] = 4189c685c00f85a6000000` is the variant's old bytes. -/
def c3File : List Nat := hexDecode "feff4189c685c00f85a6000000".toList

/-- The content `_patch_binary` writes back for `c3File`. -/
def c3Patched : List Nat := (patch_binary_core c3File false none).2

/-- Detection environment in which `nvidia-smi` exits 0 and prints
`580.1x`: a string that begins with `major.minor` but is not a strict
version string. -/
def detectEnvCex : DetectEnv :=
  { nvidia_smi := some (0, "580.1x".toList), lib_paths := [], modinfo := none,
    dpkg := none }

/-- Detection environment in which `nvidia-smi` exits 0 and prints
`580.126.09`. -/
def detectEnvW : DetectEnv :=
  { nvidia_smi := some (0, "580.126.09".toList), lib_paths := [], modinfo := none,
    dpkg := none }

/-- An orchestrator environment reaching the post-patch SONAME check with
the SONAME present before patching and gone afterwards. -/
def nvencEnvW : OrchestratorEnv :=
  { gpu_needs_patch := true,
    driver_version := some "580.126.09",
    lib_path := some "/usr/lib/x86_64-linux-gnu/libnvidia-encode.so.580.126.09",
    soname_before := some "libnvidia-encode.so.1",
    backup_ok := true,
    patch_result := { success := true, already_patched := false,
                      variant_label := "r14d", offset := 2, message := "Patched" },
    soname_after := none,
    restore_ok := true }

/-- The three mutually exclusive terminal outcomes the spec assigns to one
`_patch_binary` invocation: failure (with `already_patched=false`),
already-patched (with `success=true`), or a fresh success. -/
def exclusiveOutcome (r : PatchResult) : Prop :=
  (r.success = false ∧ r.already_patched = false) ∨
  (r.success = true ∧ r.already_patched = true) ∨
  (r.success = true ∧ r.already_patched = false)

-- ── Theorems ───────────────────────────────────────────────────────

/-- C1: the claim states that every variant of every anchor in the fixed
table has `old_hex` and `new_hex` decoding to byte strings of equal length.
The table violates this: the `r14d+JNE` variant of the first anchor decodes
to 11 old bytes but 12 new bytes (seven NOPs where the source comment
announces six), so the table contains a length-changing patch. -/
theorem anchor_table_length_mismatch :
    ∃ e ∈ ANCHORS, ∃ v ∈ e.variants,
      (hexDecode v.old_hex.toList).length ≠ (hexDecode v.new_hex.toList).length := by
  decide

/-- C3: the claim states that a successful non-dry-run `_patch_binary`
changes only the `len(beforeBytes)` bytes at the patch site and leaves the
total file length unchanged.  On the 13-byte file `c3File` the patch
succeeds via variant `r14d+JNE` yet leaves a 14-byte file: the bytearray
slice assignment inserts one extra byte. -/
theorem patch_grows_file :
    (patch_binary_core c3File false none).1.success = true ∧
    (patch_binary_core c3File false none).1.already_patched = false ∧
    (patch_binary_core c3File false none).1.variant_label = "r14d+JNE" ∧
    (patch_binary_core c3File false none).2.length = c3File.length + 1 := by
  decide

/-- C2 (counterexample): the claim states that the non-dry-run write-back
of `_patch_binary` is atomic — at every interruption point the target file
still holds its original bytes (or already the final bytes).  The source
write-back (`open(lib_path, "wb")` then `write`) truncates the target in
place: after the first event the target holds neither the original nor the
final content. -/
theorem patch_writeback_not_atomic :
    ¬ atomicPersists [("lib", c3File)] (writebackTrace "lib" c3Patched) "lib"
      c3File c3Patched := by
  intro h
  exact absurd (h 1 (by decide)) (by decide)

/-- C2 (amended): `_patch_binary` persists a non-dry-run patch by reopening
the target for writing and writing the full content in place — no temporary
location and no replace step; after the complete trace the target holds the
patched bytes, but at the interruption point between the truncating open
and the write the target is empty rather than holding its original bytes. -/
theorem patch_writeback_in_place (path : String) (orig newData : List Nat) :
    readFsFile (applyEvents [(path, orig)] (writebackTrace path newData)) path
      = some newData ∧
    readFsFile (applyEvents [(path, orig)] ((writebackTrace path newData).take 1)) path
      = some [] := by
  constructor <;> simp [writebackTrace, applyEvents, applyEvent, setFsFile, readFsFile]

/-- C8 (counterexample): the claim states that every non-None probed value
matches a strict `major.minor[.patch]` numeric pattern (digits and dots
only, nothing else).  With `nvidia-smi` printing `580.1x`, the probe
returns `580.1x` verbatim — `_VERSION_PATTERN` is only matched against the
beginning of the string — and `580.1x` is not a strict version string. -/
theorem detect_version_returns_nonstrict :
    detect_driver_version detectEnvCex none = some "580.1x".toList ∧
    specStrictVersion "580.1x".toList = false := by
  decide

/-- C9: when the file cannot be read, `_patch_binary` catches the `OSError`
and returns a `PatchResult` with `success=false`, `already_patched=false`,
`offset=-1` and a nonempty diagnostic message, instead of raising. -/
theorem patch_binary_read_failure_total (lib_path msg : String) (dry_run : Bool)
    (write_err : Option String) :
    (patch_binary lib_path (Except.error msg) dry_run write_err).1.success = false ∧
    (patch_binary lib_path (Except.error msg) dry_run write_err).1.already_patched = false ∧
    (patch_binary lib_path (Except.error msg) dry_run write_err).1.offset = -1 ∧
    (patch_binary lib_path (Except.error msg) dry_run write_err).1.message ≠ "" := by
  refine ⟨rfl, rfl, rfl, ?_⟩
  intro h
  have hlen := congrArg String.length h
  simp [patch_binary, String.length_append] at hlen
  exact absurd hlen.1.1.1 (by decide)

/-- Unfolding of the per-position occurrence test. -/
theorem matchesAt_iff {data pat : List Nat} {pos : Nat} :
    matchesAt data pat pos = true ↔
      pos + pat.length ≤ data.length ∧ (data.drop pos).take pat.length = pat := by
  simp [matchesAt]

/-- A hit returned by the bounded scan is the least match at or after the
start position. -/
theorem findFromAux_some {data pat : List Nat} :
    ∀ {fuel pos p : Nat}, findFromAux data pat pos fuel = some p →
      pos ≤ p ∧ p < pos + fuel ∧ matchesAt data pat p = true ∧
        ∀ q, pos ≤ q → q < p → matchesAt data pat q = false := by
  intro fuel
  induction fuel with
  | zero => intro pos p h; simp [findFromAux] at h
  | succ n ih =>
    intro pos p h
    simp only [findFromAux] at h
    split at h
    · rename_i hm
      cases h
      exact ⟨Nat.le_refl _, by omega, hm, fun q hq1 hq2 => absurd hq1 (by omega)⟩
    · rename_i hm
      simp only [Bool.not_eq_true] at hm
      obtain ⟨h1, h2, h3, h4⟩ := ih h
      refine ⟨by omega, by omega, h3, ?_⟩
      intro q hq1 hq2
      rcases Nat.eq_or_lt_of_le hq1 with rfl | hlt
      · exact hm
      · exact h4 q hlt hq2

/-- A failed bounded scan means no position in the scanned range matches. -/
theorem findFromAux_none {data pat : List Nat} :
    ∀ {fuel pos : Nat}, findFromAux data pat pos fuel = none →
      ∀ q, pos ≤ q → q < pos + fuel → matchesAt data pat q = false := by
  intro fuel
  induction fuel with
  | zero => intro pos _ q _ hq2; omega
  | succ n ih =>
    intro pos h q hq1 hq2
    simp only [findFromAux] at h
    split at h
    · cases h
    · rename_i hm
      simp only [Bool.not_eq_true] at hm
      rcases Nat.eq_or_lt_of_le hq1 with rfl | hlt
      · exact hm
      · exact ih h q hlt (by omega)

/-- Specification of `data.find(pattern, start)` on success. -/
theorem findFrom_some {data pat : List Nat} {start p : Nat}
    (h : findFrom data pat start = some p) :
    start ≤ p ∧ matchesAt data pat p = true ∧
      ∀ q, start ≤ q → q < p → matchesAt data pat q = false := by
  obtain ⟨h1, _, h3, h4⟩ := findFromAux_some h
  exact ⟨h1, h3, h4⟩

/-- Specification of `data.find(pattern, start)` on failure: nothing at or
after `start` matches. -/
theorem findFrom_none {data pat : List Nat} {start : Nat}
    (h : findFrom data pat start = none) :
    ∀ q, start ≤ q → matchesAt data pat q = false := by
  intro q hq
  cases hb : matchesAt data pat q
  · rfl
  · exfalso
    have hqlen := (matchesAt_iff.mp hb).1
    have hfalse := findFromAux_none h q hq (by omega)
    rw [hb] at hfalse
    cases hfalse

/-- `data.find(pattern, start)` succeeds whenever some position at or after
`start` matches. -/
theorem findFrom_complete {data pat : List Nat} {start q : Nat} (hq : start ≤ q)
    (hm : matchesAt data pat q = true) : ∃ p, findFrom data pat start = some p := by
  cases hf : findFrom data pat start
  · have := findFrom_none hf q hq
    rw [hm] at this
    cases this
  · exact ⟨_, rfl⟩

/-- Every collected occurrence lies at or after the start and matches. -/
theorem mem_findAllAux {data pat : List Nat} :
    ∀ {fuel start p : Nat}, p ∈ findAllAux data pat start fuel →
      start ≤ p ∧ matchesAt data pat p = true := by
  intro fuel
  induction fuel with
  | zero => intro start p h; simp [findAllAux] at h
  | succ n ih =>
    intro start p h
    simp only [findAllAux] at h
    cases hf : findFrom data pat start with
    | none => rw [hf] at h; simp at h
    | some pos =>
      rw [hf] at h
      obtain ⟨h1, h2, _⟩ := findFrom_some hf
      rcases List.mem_cons.mp h with rfl | hmem
      · exact ⟨h1, h2⟩
      · obtain ⟨hh1, hh2⟩ := ih hmem
        exact ⟨by omega, hh2⟩

/-- The collected occurrences are strictly increasing. -/
theorem chain_findAllAux {data pat : List Nat} :
    ∀ {fuel start : Nat}, List.Chain' (· < ·) (findAllAux data pat start fuel) := by
  intro fuel
  induction fuel with
  | zero => intro start; simp [findAllAux]
  | succ n ih =>
    intro start
    simp only [findAllAux]
    cases hf : findFrom data pat start with
    | none => simp
    | some pos =>
      rw [List.chain'_cons']
      refine ⟨?_, ih⟩
      intro y hy
      have hmem := List.mem_of_mem_head? hy
      have := (mem_findAllAux hmem).1
      omega

/-- With enough fuel, every matching position at or after the start is
collected (in particular a hit one byte after a previous hit: overlapping
occurrences are not skipped). -/
theorem findAllAux_complete {data pat : List Nat} :
    ∀ {fuel start p : Nat}, matchesAt data pat p = true → start ≤ p →
      data.length + 1 - start ≤ fuel → p ∈ findAllAux data pat start fuel := by
  intro fuel
  induction fuel with
  | zero =>
    intro start p hm hsp hfuel
    have := (matchesAt_iff.mp hm).1
    exact absurd hfuel (by omega)
  | succ n ih =>
    intro start p hm hsp hfuel
    simp only [findAllAux]
    obtain ⟨pos, hf⟩ := findFrom_complete hsp hm
    rw [hf]
    obtain ⟨h1, h2, h3⟩ := findFrom_some hf
    have hple : pos ≤ p := by
      by_contra hc
      push_neg at hc
      have := h3 p hsp hc
      rw [hm] at this
      cases this
    rcases Nat.eq_or_lt_of_le hple with rfl | hlt
    · exact List.mem_cons_self _ _
    · refine List.mem_cons_of_mem _ (ih hm (by omega) ?_)
      have hpl := (matchesAt_iff.mp h2).1
      omega

/-- C10: `_find_all_occurrences(data, pattern)` returns a strictly
increasing list containing exactly the offsets at which `pattern` occurs in
`data`; the search resumes one byte after each hit, so overlapping
occurrences all appear (e.g. the two overlapping copies of `00 00` in
`00 00 00`), which makes a multiply-occurring anchor ambiguous. -/
theorem find_all_occurrences_spec (data pat : List Nat) :
    List.Chain' (· < ·) (find_all_occurrences data pat) ∧
    (∀ p, p ∈ find_all_occurrences data pat ↔
      p + pat.length ≤ data.length ∧ (data.drop p).take pat.length = pat) ∧
    find_all_occurrences [0, 0, 0] [0, 0] = [0, 1] := by
  unfold find_all_occurrences
  refine ⟨chain_findAllAux, ?_, by decide⟩
  intro p
  constructor
  · intro h
    exact matchesAt_iff.mp (mem_findAllAux h).2
  · intro h
    exact findAllAux_complete (matchesAt_iff.mpr h) (Nat.zero_le _) (by omega)

/-- The variant loop either leaves the bytes unchanged, or the run was not
a dry run and some variant's old bytes matched the patch site exactly. -/
theorem tryVariants_unchanged_or_match {data : List Nat} {ps : Nat} {dry : Bool}
    {werr : Option String} :
    ∀ vs : List PatchVariant, (tryVariants data ps dry werr vs).2 = data ∨
      (dry = false ∧ ∃ v ∈ vs,
        pySlice data ps (hexDecode v.old_hex.toList).length = hexDecode v.old_hex.toList) := by
  intro vs
  induction vs with
  | nil => left; rfl
  | cons v rest ih =>
    simp only [tryVariants]
    split
    · rename_i hmatch
      split
      · left; rfl
      · rename_i hdry
        right
        simp only [Bool.not_eq_true] at hdry
        exact ⟨hdry, v, List.mem_cons_self _ _, hmatch⟩
    · split
      · left; rfl
      · rcases ih with h | ⟨hd, w, hw, hm⟩
        · left; exact h
        · right; exact ⟨hd, w, List.mem_cons_of_mem _ hw, hm⟩

/-- The variant loop only ever produces one of the three outcome shapes. -/
theorem tryVariants_shape {data : List Nat} {ps : Nat} {dry : Bool}
    {werr : Option String} :
    ∀ vs : List PatchVariant, exclusiveOutcome (tryVariants data ps dry werr vs).1 := by
  intro vs
  induction vs with
  | nil => left; exact ⟨rfl, rfl⟩
  | cons v rest ih =>
    simp only [tryVariants]
    split
    · split
      · right; right; exact ⟨rfl, rfl⟩
      · split
        · left; exact ⟨rfl, rfl⟩
        · right; right; exact ⟨rfl, rfl⟩
    · split
      · right; left; exact ⟨rfl, rfl⟩
      · exact ih

/-- A `matched` scan outcome names a table entry whose anchor had exactly
one hit. -/
theorem scanAnchors_matched_count {data : List Nat} :
    ∀ {l : List AnchorPattern} {e : AnchorPattern} {pos : Nat},
      scanAnchors data l = ScanOutcome.matched e pos →
      e ∈ l ∧ (find_all_occurrences data (hexDecode e.anchor.toList)).length = 1 := by
  intro l
  induction l with
  | nil => intro e pos h; simp [scanAnchors] at h
  | cons entry rest ih =>
    intro e pos h
    simp only [scanAnchors] at h
    split at h
    · rename_i hlen
      cases h
      exact ⟨List.mem_cons_self _ _, hlen⟩
    · split at h
      · cases h
      · obtain ⟨h1, h2⟩ := ih h
        exact ⟨List.mem_cons_of_mem _ h1, h2⟩

/-- When no anchor has exactly one hit and no marker is present, the scan
exhausts the table. -/
theorem scanAnchors_exhausted {data : List Nat} :
    ∀ {l : List AnchorPattern},
      (∀ e ∈ l, (find_all_occurrences data (hexDecode e.anchor.toList)).length ≠ 1) →
      (∀ e ∈ l, markerPresent data e = false) →
      scanAnchors data l = ScanOutcome.exhausted := by
  intro l
  induction l with
  | nil => intro _ _; rfl
  | cons entry rest ih =>
    intro h1 h2
    have ha := h1 entry (List.mem_cons_self _ _)
    have hb := h2 entry (List.mem_cons_self _ _)
    simp only [scanAnchors, ha, hb]
    simp only [if_false, if_neg ha, Bool.false_eq_true, ite_false]
    exact ih (fun e he => h1 e (List.mem_cons_of_mem _ he))
      (fun e he => h2 e (List.mem_cons_of_mem _ he))

/-- Equation for `patch_binary_core` when the scan matched an anchor. -/
theorem patch_binary_core_matched {data : List Nat} {dry : Bool}
    {werr : Option String} {e : AnchorPattern} {pos : Nat}
    (h : scanAnchors data ANCHORS = ScanOutcome.matched e pos) :
    patch_binary_core data dry werr = tryVariants data (pos + e.skip) dry werr e.variants := by
  unfold patch_binary_core
  rw [h]

/-- Equation for `patch_binary_core` when the scan reported the marker. -/
theorem patch_binary_core_already {data : List Nat} {dry : Bool}
    {werr : Option String}
    (h : scanAnchors data ANCHORS = ScanOutcome.alreadyPatched) :
    patch_binary_core data dry werr =
      ({ success := true, already_patched := true, variant_label := "",
         offset := -1, message := "Library is already patched" }, data) := by
  unfold patch_binary_core
  rw [h]

/-- Equation for `patch_binary_core` when the scan exhausted the table. -/
theorem patch_binary_core_exhausted {data : List Nat} {dry : Bool}
    {werr : Option String}
    (h : scanAnchors data ANCHORS = ScanOutcome.exhausted) :
    patch_binary_core data dry werr =
      if ANCHORS.any (fun e => markerPresent data e) then
        ({ success := true, already_patched := true, variant_label := "",
           offset := -1, message := "Library is already patched" }, data)
      else
        ({ success := false, already_patched := false, variant_label := "",
           offset := -1,
           message := "No unique anchor pattern found in binary. This driver version may not be supported." }, data) := by
  unfold patch_binary_core
  rw [h]

/-- C4: `_patch_binary` never writes bytes unless the literal pre-image at
the computed patch site (anchor offset + skip) equals some variant's
`beforeBytes` exactly: either the on-disk bytes are left exactly as read,
or the run was a live (non-dry) run whose uniquely matched anchor had a
variant whose old bytes occurred verbatim at the patch site. -/
theorem patch_exact_match_safety (data : List Nat) (dry_run : Bool)
    (write_err : Option String) :
    (patch_binary_core data dry_run write_err).2 = data ∨
    (dry_run = false ∧ ∃ e pos, scanAnchors data ANCHORS = ScanOutcome.matched e pos ∧
      ∃ v ∈ e.variants,
        pySlice data (pos + e.skip) (hexDecode v.old_hex.toList).length
          = hexDecode v.old_hex.toList) := by
  cases hscan : scanAnchors data ANCHORS with
  | alreadyPatched => left; rw [patch_binary_core_already hscan]
  | exhausted =>
    left
    rw [patch_binary_core_exhausted hscan]
    split <;> rfl
  | matched e pos =>
    rw [patch_binary_core_matched hscan]
    rcases @tryVariants_unchanged_or_match data (pos + e.skip)
        dry_run write_err e.variants with h | ⟨hdry, v, hv, hm⟩
    · left; exact h
    · right; exact ⟨hdry, e, pos, rfl, v, hv, hm⟩

/-- The core patcher only produces the three outcome shapes. -/
theorem patch_binary_core_shape (data : List Nat) (dry : Bool)
    (werr : Option String) : exclusiveOutcome (patch_binary_core data dry werr).1 := by
  cases hscan : scanAnchors data ANCHORS with
  | alreadyPatched =>
    rw [patch_binary_core_already hscan]
    exact Or.inr (Or.inl ⟨rfl, rfl⟩)
  | exhausted =>
    rw [patch_binary_core_exhausted hscan]
    split
    · exact Or.inr (Or.inl ⟨rfl, rfl⟩)
    · exact Or.inl ⟨rfl, rfl⟩
  | matched e pos =>
    rw [patch_binary_core_matched hscan]
    exact tryVariants_shape e.variants

/-- C7: every `PatchResult` returned by `_patch_binary` has exactly one of
the three mutually exclusive outcome shapes; in particular a result never
combines `success=false` with `already_patched=true`. -/
theorem patch_result_exclusive (lib_path : String)
    (read_result : Except String (List Nat)) (dry_run : Bool)
    (write_err : Option String) :
    exclusiveOutcome (patch_binary lib_path read_result dry_run write_err).1 ∧
    (!(patch_binary lib_path read_result dry_run write_err).1.success &&
      (patch_binary lib_path read_result dry_run write_err).1.already_patched) = false := by
  have hshape : exclusiveOutcome (patch_binary lib_path read_result dry_run write_err).1 := by
    cases read_result with
    | error e => exact Or.inl ⟨rfl, rfl⟩
    | ok data => exact patch_binary_core_shape data dry_run write_err
  refine ⟨hshape, ?_⟩
  rcases hshape with ⟨h1, h2⟩ | ⟨h1, h2⟩ | ⟨h1, h2⟩ <;> simp [h1, h2]

/-- C5: the matcher accepts an anchor only when it occurs exactly once —
a multiply-occurring anchor is never selected — and when no anchor occurs
exactly once and no patched marker is present anywhere, `_patch_binary`
returns a failure result with the file bytes unmodified. -/
theorem patch_ambiguity_safety (data : List Nat) (dry_run : Bool)
    (write_err : Option String) :
    (∀ e pos, scanAnchors data ANCHORS = ScanOutcome.matched e pos →
      (find_all_occurrences data (hexDecode e.anchor.toList)).length = 1) ∧
    ((∀ e ∈ ANCHORS, (find_all_occurrences data (hexDecode e.anchor.toList)).length ≠ 1) →
     (∀ e ∈ ANCHORS, markerPresent data e = false) →
      (patch_binary_core data dry_run write_err).1.success = false ∧
      (patch_binary_core data dry_run write_err).1.already_patched = false ∧
      (patch_binary_core data dry_run write_err).2 = data) := by
  constructor
  · intro e pos h
    exact (scanAnchors_matched_count h).2
  · intro h1 h2
    have hs := scanAnchors_exhausted h1 h2
    rw [patch_binary_core_exhausted hs]
    have hany : ANCHORS.any (fun e => markerPresent data e) = false := by
      rw [List.any_eq_false]
      intro e he
      simp [h2 e he]
    rw [hany]
    exact ⟨rfl, rfl, rfl⟩

/-- Witness for C5: on the empty file no anchor occurs and no marker is
present, so the patcher fails and leaves the (empty) bytes unchanged. -/
theorem patch_ambiguity_safety_witness :
    (patch_binary_core [] false none).1.success = false ∧
    (patch_binary_core [] false none).1.already_patched = false ∧
    (patch_binary_core [] false none).2 = ([] : List Nat) :=
  (patch_ambiguity_safety [] false none).2 (by decide) (by decide)

/-- C6: in `_apply_nvenc_patch`, after a successful non-dry-run patch, if
the SONAME was present before patching and is absent afterwards, the
orchestrator invokes `_restore_backup` on the live library path and takes
the rolled-back return point, never the one that reports success. -/
theorem soname_loss_triggers_rollback (env : OrchestratorEnv)
    (hg : env.gpu_needs_patch = true)
    (hv : env.driver_version.isSome = true)
    (hl : env.lib_path.isSome = true)
    (hs : optTruthy env.soname_before = true)
    (hb : env.backup_ok = true)
    (hp : env.patch_result.success = true)
    (hap : env.patch_result.already_patched = false)
    (ha : optTruthy env.soname_after = false) :
    apply_nvenc_patch env false false =
      ⟨NvencReport.sonameDestroyedRolledBack, true⟩ ∧
    logsPatchSuccess (apply_nvenc_patch env false false).report = false := by
  obtain ⟨dv, hdv⟩ := Option.isSome_iff_exists.mp hv
  obtain ⟨lp, hlp⟩ := Option.isSome_iff_exists.mp hl
  have hmain : apply_nvenc_patch env false false =
      ⟨NvencReport.sonameDestroyedRolledBack, true⟩ := by
    unfold apply_nvenc_patch
    rw [hdv, hlp]
    simp [hg, hs, hb, hp, hap, ha]
  refine ⟨hmain, ?_⟩
  rw [hmain]
  rfl


/-- Witness for C6 at a concrete environment. -/
theorem soname_loss_triggers_rollback_witness :
    apply_nvenc_patch nvencEnvW false false =
      ⟨NvencReport.sonameDestroyedRolledBack, true⟩ ∧
    logsPatchSuccess (apply_nvenc_patch nvencEnvW false false).report = false :=
  soname_loss_triggers_rollback nvencEnvW rfl rfl rfl rfl rfl rfl rfl rfl

/-- Prepending an all-digit run to a dot-headed tail splits cleanly under
`takeWhile`/`dropWhile`. -/
theorem takeWhile_append_digits :
    ∀ {a rest : List Char}, (∀ c ∈ a, isDigitC c = true) →
      (a ++ '.' :: rest).takeWhile isDigitC = a ∧
      (a ++ '.' :: rest).dropWhile isDigitC = '.' :: rest := by
  have hdot : isDigitC '.' = false := by decide
  intro a
  induction a with
  | nil =>
    intro rest _
    constructor
    · simp [List.takeWhile_cons, hdot]
    · simp [List.dropWhile_cons, hdot]
  | cons c cs ih =>
    intro rest ha
    have hc := ha c (List.mem_cons_self _ _)
    have ih2 := @ih rest (fun d hd => ha d (List.mem_cons_of_mem _ hd))
    constructor
    · simp [List.takeWhile_cons, hc, ih2.1]
    · simp [List.dropWhile_cons, hc, ih2.2]

/-- A string built as `digits ++ "." ++ digits ++ "." ++ tail` begins with
the `^[0-9]+\.[0-9]+` pattern. -/
theorem ver3_match {a b c : List Char} (hna : a ≠ []) (hnb : b ≠ [])
    (ha : ∀ x ∈ a, isDigitC x = true) (hb : ∀ x ∈ b, isDigitC x = true) :
    versionPatternMatch ((a ++ '.' :: b) ++ '.' :: c) = true := by
  obtain ⟨d, b', rfl⟩ : ∃ d b', b = d :: b' := by
    cases b with
    | nil => exact absurd rfl hnb
    | cons d b' => exact ⟨d, b', rfl⟩
  have hd := hb d (List.mem_cons_self _ _)
  have hassoc : (a ++ '.' :: d :: b') ++ '.' :: c = a ++ '.' :: (d :: b' ++ '.' :: c) := by
    rw [List.append_assoc]
    simp [List.cons_append]
  rw [hassoc]
  have h2 := @takeWhile_append_digits a (d :: b' ++ '.' :: c) ha
  unfold versionPatternMatch
  rw [h2.2, h2.1]
  simp [hna, hd]

/-- Whatever `parseVer3` extracts is a nonempty string beginning with the
`major.minor` numeric pattern. -/
theorem parseVer3_shape {s v : List Char} (h : parseVer3 s = some v) :
    v ≠ [] ∧ versionPatternMatch v = true := by
  simp only [parseVer3] at h
  split at h
  · rename_i heqa heqd
    split at h
    · rename_i heqb heqd2
      split at h
      · cases h
      · cases h
        constructor
        · intro hv
          rcases List.append_eq_nil.mp hv with ⟨-, htl⟩
          cases htl
        · refine ver3_match ?_ ?_ ?_ ?_
          · rw [heqa]; intro hx; cases hx
          · rw [heqb]; intro hx; cases hx
          · exact fun x hx => List.mem_takeWhile_imp hx
          · exact fun x hx => List.mem_takeWhile_imp hx
    · cases h
  · cases h

/-- Whatever the `.so.` version regex extracts has the version shape. -/
theorem extractSoVersion_shape :
    ∀ {s v : List Char}, extractSoVersion s = some v →
      v ≠ [] ∧ versionPatternMatch v = true := by
  intro s
  induction s with
  | nil => intro v h; simp [extractSoVersion] at h
  | cons c rest ih =>
    intro v h
    simp only [extractSoVersion] at h
    split at h
    · split at h
      · rename_i v2 hp
        cases h
        exact parseVer3_shape hp
      · exact ih h
    · exact ih h

/-- The stable reverse sort's head is one of the collected versions. -/
theorem maxByKey_mem (v : List Char) (vs : List (List Char)) :
    maxByKey v vs = v ∨ maxByKey v vs ∈ vs := by
  unfold maxByKey
  induction vs generalizing v with
  | nil => left; rfl
  | cons x xs ih =>
    simp only [List.foldl_cons]
    rcases ih (if keyLt (verKey v) (verKey x) then x else v) with h | h
    · rw [h]
      split
      · right; exact List.mem_cons_self _ _
      · left; rfl
    · right; exact List.mem_cons_of_mem _ h

/-- Any version returned by `_detect_version_from_library` has the version
shape. -/
theorem detect_version_from_library_shape {paths : List (List Char)}
    {v : List Char} (h : detect_version_from_library paths = some v) :
    v ≠ [] ∧ versionPatternMatch v = true := by
  simp only [detect_version_from_library] at h
  split at h
  · cases h
  · rename_i v0 vs0 heq
    cases h
    have hmem : maxByKey v0 vs0 ∈ v0 :: vs0 := by
      rcases maxByKey_mem v0 vs0 with h | h
      · rw [h]; exact List.mem_cons_self _ _
      · exact List.mem_cons_of_mem _ h
    rw [← heq] at hmem
    obtain ⟨p, _, hex⟩ := List.mem_filterMap.mp hmem
    exact extractSoVersion_shape hex

/-- Any version returned by the `modinfo` line scan has the version shape. -/
theorem scanModinfoLines_shape :
    ∀ {lines : List (List Char)} {v : List Char},
      scanModinfoLines lines = some v → v ≠ [] ∧ versionPatternMatch v = true := by
  intro lines
  induction lines with
  | nil => intro v h; simp [scanModinfoLines] at h
  | cons line rest ih =>
    intro v h
    simp only [scanModinfoLines] at h
    split at h
    · split at h
      · rename_i hcond
        cases h
        exact ⟨hcond.1, hcond.2⟩
      · exact ih h
    · exact ih h

/-- Any version returned by the `dpkg` line scan has the version shape. -/
theorem scanDpkgLines_shape :
    ∀ {lines : List (List Char)} {v : List Char},
      scanDpkgLines lines = some v → v ≠ [] ∧ versionPatternMatch v = true := by
  intro lines
  induction lines with
  | nil => intro v h; simp [scanDpkgLines] at h
  | cons line rest ih =>
    intro v h
    simp only [scanDpkgLines] at h
    split at h
    · split at h
      · split at h
        · rename_i v2 hp
          cases h
          exact parseVer3_shape hp
        · exact ih h
      · exact ih h
    · exact ih h

/-- Any version returned by the `nvidia-smi` probe has the version shape. -/
theorem detectMethod1_shape {probe : Option (Int × List Char)} {v : List Char}
    (h : detectMethod1 probe = some v) : v ≠ [] ∧ versionPatternMatch v = true := by
  simp only [detectMethod1] at h
  split at h
  · cases h
  · split at h
    · split at h
      · rename_i hcond
        cases h
        exact ⟨hcond.1, hcond.2⟩
      · cases h
    · cases h

/-- Any version returned by the `modinfo` probe has the version shape. -/
theorem detectMethod3_shape {probe : Option (Int × List Char)} {v : List Char}
    (h : detectMethod3 probe = some v) : v ≠ [] ∧ versionPatternMatch v = true := by
  simp only [detectMethod3] at h
  split at h
  · cases h
  · split at h
    · exact scanModinfoLines_shape h
    · cases h

/-- Any version returned by the `dpkg` probe has the version shape. -/
theorem detectMethod4_shape {probe : Option (Int × List Char)} {v : List Char}
    (h : detectMethod4 probe = some v) : v ≠ [] ∧ versionPatternMatch v = true := by
  simp only [detectMethod4] at h
  split at h
  · cases h
  · split at h
    · exact scanDpkgLines_shape h
    · cases h

/-- C8 (amended): `_detect_driver_version` returns a caller-supplied
`manual_version` unchanged without consulting any probe, and every non-None
value it returns from probing is a nonempty string that BEGINS with the
`major.minor` numeric pattern (the nvidia-smi and modinfo probes only
prefix-match `_VERSION_PATTERN`, so trailing characters may remain; the
filename and dpkg probes extract fully numeric `X.Y.Z` strings). -/
theorem detect_driver_version_amended (env : DetectEnv) (v : List Char) :
    (∀ m, detect_driver_version env (some m) = some m) ∧
    (detect_driver_version env none = some v →
      v ≠ [] ∧ versionPatternMatch v = true) := by
  constructor
  · intro m; rfl
  · intro h
    simp only [detect_driver_version] at h
    cases h1 : detectMethod1 env.nvidia_smi with
    | some w =>
      simp only [h1] at h
      cases h
      exact detectMethod1_shape h1
    | none =>
      simp only [h1] at h
      cases h2 : detect_version_from_library env.lib_paths with
      | some w =>
        simp only [h2] at h
        cases h
        exact detect_version_from_library_shape h2
      | none =>
        simp only [h2] at h
        cases h3 : detectMethod3 env.modinfo with
        | some w =>
          simp only [h3] at h
          cases h
          exact detectMethod3_shape h3
        | none =>
          simp only [h3] at h
          exact detectMethod4_shape h

/-- Witness for C8 (amended) at a concrete environment: the probe returns
`580.126.09`, which is nonempty and begins with the numeric pattern. -/
theorem detect_driver_version_amended_witness :
    "580.126.09".toList ≠ ([] : List Char) ∧
    versionPatternMatch "580.126.09".toList = true :=
  (detect_driver_version_amended detectEnvW "580.126.09".toList).2 (by decide)
